import Mathlib

/-!
Verification development for the PlayProof scoring service
(`src/services/scoring/main.py`) against its natural-language
specification.

The source file is a FastAPI endpoint whose data model (VerificationResult,
Event, ScoringRequest, ScoringResponse) and `score` handler are embedded
shallowly below.  Components that the specification describes but that are
absent from the source (calibration layer, decision policy, session
aggregator, orchestrator fallback) are modelled from the specification's
words; each such definition carries a doc comment starting
`Modelled from the spec:`.
-/

namespace PlayProof

/-- A Python `float` value: finite rational, or one of the non-finite
IEEE values.  Used for event timestamps, which the service never inspects. -/
inductive PyFloat where
  | finite (q : ℚ)
  | inf
  | neginf
  | nan
deriving DecidableEq

/-- An untyped Python value as it may appear in an event payload `dict`. -/
inductive PyVal where
  | vBool (b : Bool)
  | vInt (n : Int)
  | vStr (s : String)
  | vFloat (x : PyFloat)
  | vNone
deriving DecidableEq

/-- A Python `dict` with string keys, as an association list. -/
def PyDict : Type := List (String × PyVal)

instance : DecidableEq PyDict := by
  unfold PyDict
  infer_instance

/-- Lookup in a Python dict (first binding wins, as in an assoc view). -/
def PyDict.lookup (d : PyDict) (k : String) : Option PyVal :=
  List.lookup k d

/-- `class VerificationResult(str, Enum)` from the source: exactly the four
verdicts PASS, FAIL, REGENERATE, STEP_UP. -/
inductive VerificationResult where
  | PASS
  | FAIL
  | REGENERATE
  | STEP_UP
deriving DecidableEq

/-- `class Event(BaseModel)` from the source: `type: str`,
`timestamp: float`, `data: dict`. -/
structure Event where
  type : String
  timestamp : PyFloat
  data : PyDict
deriving DecidableEq

/-- `class ScoringRequest(BaseModel)` from the source:
`session_id: str`, `events: List[Event]`. -/
structure ScoringRequest where
  session_id : String
  events : List Event
deriving DecidableEq

/-- `class ScoringResponse(BaseModel)` from the source:
`result: VerificationResult`, `confidence: float`,
`details: Optional[dict] = None`.  The confidence values the handler
produces are finite literals, so `confidence` is embedded as `ℚ`. -/
structure ScoringResponse where
  result : VerificationResult
  confidence : ℚ
  details : Option PyDict := none
deriving DecidableEq

/-- The `score` endpoint body from the source, verbatim: it ignores the
events' contents and always returns PASS with confidence 0.95 and a
placeholder details dict recording the number of events received. -/
def score (request : ScoringRequest) : ScoringResponse :=
  { result := VerificationResult.PASS
    confidence := 95 / 100
    details := some [("placeholder", PyVal.vBool true),
                     ("events_received", PyVal.vInt request.events.length)] }

/-- The handler viewed as a fallible operation: the source body contains no
`raise` and no fallible call, so it always succeeds with `score request`. -/
def scoreHandler (request : ScoringRequest) : Except String ScoringResponse :=
  Except.ok (score request)

/-- Sequential processing of a stream of requests by the service.  The
source's handler reads only its `request` argument and mutates no module
state, so the stream is handled request by request with no carried state. -/
def serveAll : List ScoringRequest → List ScoringResponse
  | [] => []
  | r :: rs => score r :: serveAll rs

/-- Modelled from the spec: a breakpoint of the per-model-version
calibration table of §4.5 ("a piecewise mapping fit offline"); the
calibration layer is absent from the source. -/
structure CalibPoint where
  x : ℚ
  y : ℚ
deriving DecidableEq

/-- Modelled from the spec: lookup of a piecewise calibration table,
scanning breakpoints in order and keeping the output of the last
breakpoint whose input bound does not exceed `p`. -/
def lookupCal : List CalibPoint → ℚ → ℚ → ℚ
  | [], _, acc => acc
  | c :: rest, p, acc => if c.x ≤ p then lookupCal rest p c.y else acc

/-- Modelled from the spec: `calibrate(p_pass) -> confidence in [0,1]`
(§4.5), a monotonic piecewise transform given by a breakpoint table;
below the first breakpoint the confidence is 0. -/
def calibrate (tbl : List CalibPoint) (p : ℚ) : ℚ :=
  lookupCal tbl p 0

/-- Modelled from the spec: well-formedness of a calibration table fit
offline — breakpoints sorted by input with non-decreasing outputs, all
outputs inside `[0,1]`. -/
def WellFormedTable (tbl : List CalibPoint) : Prop :=
  tbl.Pairwise (fun a b => a.x ≤ b.x ∧ a.y ≤ b.y) ∧ ∀ c ∈ tbl, 0 ≤ c.y ∧ c.y ≤ 1

/-- Modelled from the spec: the decision-policy states of §4.6 — INITIAL,
AWAITING_RETRY, ESCALATED, and TERMINAL carrying the final PASS or FAIL
verdict; the decision policy is absent from the source. -/
inductive PState where
  | INITIAL
  | AWAITING_RETRY
  | ESCALATED
  | TERMINAL (v : VerificationResult)
deriving DecidableEq

/-- Modelled from the spec: the configuration surface of §4.6/§6 —
`pass_threshold`, `fail_threshold`, `regenerate_threshold`,
`max_regenerate` ("thresholds are configuration, not hardcoded"). -/
structure PolicyConfig where
  pass_threshold : ℚ
  fail_threshold : ℚ
  regenerate_threshold : ℚ
  max_regenerate : ℕ
deriving DecidableEq

/-- Modelled from the spec: the per-session decision-policy state of §3 —
policy state, regenerate-count and step-up flag. -/
structure PSession where
  pstate : PState
  regenerate_count : ℕ
  step_up_flag : Bool
deriving DecidableEq

/-- Modelled from the spec: a session freshly created on the first scoring
request for a new session id — INITIAL state, zero regenerate-count,
step-up flag unset. -/
def freshPSession : PSession :=
  { pstate := PState.INITIAL, regenerate_count := 0, step_up_flag := false }

/-- Modelled from the spec: the decision-policy transition rules of §4.6,
checked in the spec's tie-break order (PASS/FAIL before REGENERATE before
STEP_UP): confidence at or above `pass_threshold` is PASS and terminal;
confidence at or below `fail_threshold` is FAIL and terminal; confidence
below `regenerate_threshold` with retry budget left and adequate signal is
REGENERATE, incrementing the count; every remaining ambiguous or
sparse-evidence case escalates to STEP_UP.  From a TERMINAL state no
further transition occurs. -/
def decide (cfg : PolicyConfig) (conf : ℚ) (sparse : Bool) (s : PSession) :
    VerificationResult × PSession :=
  match s.pstate with
  | PState.TERMINAL v => (v, s)
  | _ =>
    if cfg.pass_threshold ≤ conf then
      (VerificationResult.PASS, { s with pstate := PState.TERMINAL VerificationResult.PASS })
    else if conf ≤ cfg.fail_threshold then
      (VerificationResult.FAIL, { s with pstate := PState.TERMINAL VerificationResult.FAIL })
    else if conf < cfg.regenerate_threshold ∧ s.regenerate_count < cfg.max_regenerate ∧
        sparse = false then
      (VerificationResult.REGENERATE,
        { s with pstate := PState.AWAITING_RETRY,
                 regenerate_count := s.regenerate_count + 1 })
    else
      (VerificationResult.STEP_UP,
        { s with pstate := PState.ESCALATED, step_up_flag := true })

/-- Modelled from the spec: a scoring call entering the decision policy —
"a new scoring request for a TERMINAL session must re-derive a fresh
session (treated as a new attempt), never silently reuse a stale terminal
verdict" (§4.6). -/
def scoreCall (cfg : PolicyConfig) (conf : ℚ) (sparse : Bool) (s : PSession) :
    VerificationResult × PSession :=
  match s.pstate with
  | PState.TERMINAL _ => decide cfg conf sparse freshPSession
  | _ => decide cfg conf sparse s

/-- Modelled from the spec: the session state after a sequence of
decision-policy steps within a single session lifetime (no re-derivation). -/
def runLifetime (cfg : PolicyConfig) (s : PSession) (inputs : List (ℚ × Bool)) : PSession :=
  inputs.foldl (fun st i => (decide cfg i.1 i.2 st).2) s

/-- Modelled from the spec: the session state after a sequence of scoring
calls (each call re-deriving a fresh session when the stored one is
TERMINAL). -/
def runCalls (cfg : PolicyConfig) (s : PSession) (inputs : List (ℚ × Bool)) : PSession :=
  inputs.foldl (fun st i => (scoreCall cfg i.1 i.2 st).2) s

/-- Modelled from the spec: the closed set of normalized event kinds of §3
(pointer-move, key-press, challenge-interaction, timing-beacon); the
normalizer is absent from the source. -/
inductive EventKind where
  | pointerMove
  | keyPress
  | challengeInteraction
  | timingBeacon
deriving DecidableEq

/-- Modelled from the spec: a NormalizedEvent — a tagged event kind with a
non-negative timestamp. -/
structure NormalizedEvent where
  kind : EventKind
  timestamp : ℚ
deriving DecidableEq

/-- Modelled from the spec: the Session Aggregator's `append` of §4.3 —
"when the event count exceeds the cap, the oldest events are evicted
(FIFO) before the new one is appended"; the aggregator is absent from the
source. -/
def appendCapped (cap : ℕ) (history : List NormalizedEvent) (e : NormalizedEvent) :
    List NormalizedEvent :=
  let kept :=
    if cap ≤ history.length then history.drop (history.length + 1 - cap) else history
  kept ++ [e]

/-- Modelled from the spec: the infrastructure-class error taxonomy of §7 —
`ModelUnavailable`, `CalibrationUnavailable`, `DeadlineExceeded`. -/
inductive InfraError where
  | ModelUnavailable
  | CalibrationUnavailable
  | DeadlineExceeded
deriving DecidableEq

/-- Modelled from the spec: the fallible stages the orchestrator of §4.7
composes — the per-request deadline check, the classifier `infer`, and the
calibration stage, each of which may fail with an infrastructure error. -/
structure Orchestrator where
  checkDeadline : Except InfraError Unit
  infer : List Event → Except InfraError ℚ
  calibrateStage : ℚ → Except InfraError ℚ

/-- Modelled from the spec: running the pipeline stages in order, stopping
at the first infrastructure error (§4.7: a failed stage is never retried
within the request). -/
def pipelineConfidence (o : Orchestrator) (events : List Event) : Except InfraError ℚ := do
  o.checkDeadline
  let p ← o.infer events
  o.calibrateStage p

/-- Modelled from the spec: the orchestrator of §4.7/§7 — if any stage
fails, it returns verdict STEP_UP with the diagnostic flag
`details.fallback = true` instead of propagating the error; otherwise the
calibrated confidence is handed to the decision policy. -/
def orchestrate (o : Orchestrator) (cfg : PolicyConfig) (sparse : Bool) (s : PSession)
    (events : List Event) : ScoringResponse × PSession :=
  match pipelineConfidence o events with
  | Except.error _ =>
      ({ result := VerificationResult.STEP_UP, confidence := 0,
         details := some [("fallback", PyVal.vBool true)] }, s)
  | Except.ok c =>
      let r := scoreCall cfg c sparse s
      ({ result := r.1, confidence := c, details := none }, r.2)

/-- A concrete scoring request for a new session carrying exactly one
event: the sparse-history scenario of the spec's end-to-end scenario A. -/
def oneEventRequest : ScoringRequest :=
  { session_id := "new-session"
    events := [{ type := "pointer-move", timestamp := PyFloat.finite 0, data := [] }] }

/-- A concrete orchestrator whose classifier stage fails with
`ModelUnavailable` while the deadline check and calibration stage are
healthy. -/
def failingOrch : Orchestrator :=
  { checkDeadline := Except.ok ()
    infer := fun _ => Except.error InfraError.ModelUnavailable
    calibrateStage := fun p => Except.ok p }

/-- A concrete policy configuration on a 0–10 confidence scale:
pass at 9, fail at 2, regenerate below 6, at most 2 regenerations. -/
def cfgEx : PolicyConfig :=
  { pass_threshold := 9, fail_threshold := 2, regenerate_threshold := 6, max_regenerate := 2 }

/-- A concrete two-point calibration table. -/
def calTableEx : List CalibPoint :=
  [{ x := 2, y := 0 }, { x := 5, y := 1 }]

/-- A concrete event history of two normalized events. -/
def histEx : List NormalizedEvent :=
  [{ kind := EventKind.pointerMove, timestamp := 0 },
   { kind := EventKind.keyPress, timestamp := 1 }]

/-- A concrete session that has reached the TERMINAL state with a PASS
verdict. -/
def termSessEx : PSession :=
  { pstate := PState.TERMINAL VerificationResult.PASS, regenerate_count := 1,
    step_up_flag := false }

/-- A concrete ESCALATED session whose retry budget is exhausted. -/
def escSessEx : PSession :=
  { pstate := PState.ESCALATED, regenerate_count := 2, step_up_flag := true }

section Lemmas

/-- On a TERMINAL session the decision policy performs no transition:
it returns the stored verdict and leaves the session unchanged. -/
theorem decide_terminal (cfg : PolicyConfig) (conf : ℚ) (sparse : Bool) (s : PSession)
    (v : VerificationResult) (h : s.pstate = PState.TERMINAL v) :
    decide cfg conf sparse s = (v, s) := by
  unfold decide
  rw [h]

/-- A single decision-policy step keeps the regenerate-count at or below
`max_regenerate`. -/
theorem decide_count_le (cfg : PolicyConfig) (conf : ℚ) (sparse : Bool) (s : PSession)
    (h : s.regenerate_count ≤ cfg.max_regenerate) :
    (decide cfg conf sparse s).2.regenerate_count ≤ cfg.max_regenerate := by
  obtain ⟨ps, rc, su⟩ := s
  cases ps <;> simp [decide] <;> first
    | (split_ifs <;> simp_all <;> omega)
    | simp_all

/-- A scoring call (with fresh re-derivation on TERMINAL) keeps the
regenerate-count at or below `max_regenerate`. -/
theorem scoreCall_count_le (cfg : PolicyConfig) (conf : ℚ) (sparse : Bool) (s : PSession)
    (h : s.regenerate_count ≤ cfg.max_regenerate) :
    (scoreCall cfg conf sparse s).2.regenerate_count ≤ cfg.max_regenerate := by
  obtain ⟨ps, rc, su⟩ := s
  cases ps <;>
    first
      | exact decide_count_le cfg conf sparse _ h
      | exact decide_count_le cfg conf sparse freshPSession (Nat.zero_le _)

/-- The regenerate-count bound is preserved along any sequence of scoring
calls. -/
theorem runCalls_count_le (cfg : PolicyConfig) (inputs : List (ℚ × Bool)) (s : PSession)
    (h : s.regenerate_count ≤ cfg.max_regenerate) :
    (runCalls cfg s inputs).regenerate_count ≤ cfg.max_regenerate := by
  induction inputs generalizing s with
  | nil => exact h
  | cons i rest ih =>
      exact ih _ (scoreCall_count_le cfg i.1 i.2 s h)

/-- A TERMINAL session is a fixed point of any sequence of
decision-policy steps within one lifetime. -/
theorem runLifetime_terminal_fixed (cfg : PolicyConfig) (s : PSession)
    (v : VerificationResult) (h : s.pstate = PState.TERMINAL v)
    (inputs : List (ℚ × Bool)) :
    runLifetime cfg s inputs = s := by
  induction inputs with
  | nil => rfl
  | cons i rest ih =>
      have hstep : (decide cfg i.1 i.2 s).2 = s :=
        congrArg Prod.snd (decide_terminal cfg i.1 i.2 s v h)
      simp only [runLifetime, List.foldl_cons] at ih ⊢
      rw [hstep]
      exact ih

/-- The table lookup never drops below a lower bound shared by the
accumulator and every table output. -/
theorem lookupCal_lower (tbl : List CalibPoint) (p acc a : ℚ)
    (ha : acc ≤ a) (h : ∀ c ∈ tbl, acc ≤ c.y) :
    acc ≤ lookupCal tbl p a := by
  induction tbl generalizing a with
  | nil => exact ha
  | cons c rest ih =>
      unfold lookupCal
      split
      · exact ih c.y (h c (List.mem_cons_self c rest)) fun b hb => h b (List.mem_cons_of_mem c hb)
      · exact ha

/-- The table lookup is monotone in the probe point, for tables sorted by
input with non-decreasing outputs bounded below by the accumulator. -/
theorem lookupCal_mono (tbl : List CalibPoint) (pa pb acc : ℚ)
    (hsorted : tbl.Pairwise fun a b => a.x ≤ b.x ∧ a.y ≤ b.y)
    (hacc : ∀ c ∈ tbl, acc ≤ c.y) (hp : pb ≤ pa) :
    lookupCal tbl pb acc ≤ lookupCal tbl pa acc := by
  induction tbl generalizing acc with
  | nil => exact le_refl acc
  | cons c rest ih =>
      rw [List.pairwise_cons] at hsorted
      unfold lookupCal
      by_cases hb : c.x ≤ pb
      · rw [if_pos hb, if_pos (le_trans hb hp)]
        exact ih c.y hsorted.2 (fun b hb' => (hsorted.1 b hb').2)
      · rw [if_neg hb]
        by_cases hA : c.x ≤ pa
        · rw [if_pos hA]
          exact lookupCal_lower rest pa acc c.y (hacc c (List.mem_cons_self c rest))
            fun b hb' => hacc b (List.mem_cons_of_mem c hb')
        · rw [if_neg hA]

/-- `serveAll` distributes over concatenation of request streams: the
service carries no state between requests. -/
theorem serveAll_append (l₁ l₂ : List ScoringRequest) :
    serveAll (l₁ ++ l₂) = serveAll l₁ ++ serveAll l₂ := by
  induction l₁ with
  | nil => rfl
  | cons r rs ih => simp [serveAll, ih]

end Lemmas

/-- C2: for every well-typed ScoringRequest — any session_id string and
any list of events — the `score` operation returns result PASS,
confidence 0.95, `details.placeholder = true` and
`details.events_received` equal to the number of events in the request,
regardless of the events' contents. -/
theorem score_always_placeholder_pass (r : ScoringRequest) :
    (score r).result = VerificationResult.PASS ∧
    (score r).confidence = 95 / 100 ∧
    ∃ d, (score r).details = some d ∧
      d.lookup "placeholder" = some (PyVal.vBool true) ∧
      d.lookup "events_received" = some (PyVal.vInt r.events.length) := by
  refine ⟨rfl, rfl, _, rfl, ?_, ?_⟩ <;> simp [PyDict.lookup, List.lookup]

/-- C4 (divergence witness): at a concrete request the source's `score`
returns the hardcoded placeholder constant 0.95 as the confidence — no
calibration stage exists in the code, so the value is an uncalibrated raw
constant, not the calibrated value the claim requires.  The remaining
conjuncts of the claim do hold of the code: the value lies in [0,1] and
the result is one of the four enum verdicts (here PASS). -/
theorem score_confidence_uncalibrated_constant :
    (score { session_id := "s", events := [] }).confidence = 95 / 100 ∧
    (0 ≤ (score { session_id := "s", events := [] }).confidence ∧
      (score { session_id := "s", events := [] }).confidence ≤ 1) ∧
    (score { session_id := "s", events := [] }).result = VerificationResult.PASS := by
  exact ⟨rfl, ⟨by norm_num [score], by norm_num [score]⟩, rfl⟩

/-- C5: two `score` calls on identical session state and identical new
events (the service holds no session state and uses no clock, so the
request determines the call) yield identical confidence and identical
result. -/
theorem score_idempotent (r₁ r₂ : ScoringRequest)
    (hsid : r₁.session_id = r₂.session_id) (hev : r₁.events = r₂.events) :
    (score r₁).confidence = (score r₂).confidence ∧
    (score r₁).result = (score r₂).result := by
  obtain ⟨s₁, e₁⟩ := r₁
  obtain ⟨s₂, e₂⟩ := r₂
  cases hsid
  cases hev
  exact ⟨rfl, rfl⟩

/-- Witness for C5 at a concrete request. -/
theorem score_idempotent_witness :
    (score ⟨"sess", []⟩).confidence = (score ⟨"sess", []⟩).confidence ∧
    (score ⟨"sess", []⟩).result = (score ⟨"sess", []⟩).result :=
  score_idempotent ⟨"sess", []⟩ ⟨"sess", []⟩ rfl rfl

/-- C10: every well-typed ScoringRequest is accepted without error — an
event with an arbitrary type string, an arbitrary (possibly negative or
non-finite) timestamp and an arbitrary payload mapping is never rejected —
and the response to a request in a stream does not depend on the requests
processed before it. -/
theorem score_total_and_stateless (sid ty : String) (ts : PyFloat) (payload : PyDict)
    (rest : List Event) (pre : List ScoringRequest) :
    scoreHandler ⟨sid, { type := ty, timestamp := ts, data := payload } :: rest⟩ =
      Except.ok (score ⟨sid, { type := ty, timestamp := ts, data := payload } :: rest⟩) ∧
    serveAll (pre ++ [⟨sid, { type := ty, timestamp := ts, data := payload } :: rest⟩]) =
      serveAll pre ++ [score ⟨sid, { type := ty, timestamp := ts, data := payload } :: rest⟩] := by
  refine ⟨rfl, ?_⟩
  rw [serveAll_append]
  rfl

/-- C1: whenever a pipeline stage fails with an infrastructure-class
error — the deadline check (DeadlineExceeded), the classifier
(ModelUnavailable), or the calibration stage (CalibrationUnavailable) —
the orchestrated score operation returns verdict STEP_UP with the
diagnostic flag `fallback = true` in details, and never returns PASS. -/
theorem infra_error_yields_step_up (o : Orchestrator) (cfg : PolicyConfig) (sparse : Bool)
    (s : PSession) (events : List Event) (e : InfraError)
    (h : o.checkDeadline = Except.error e ∨
      (o.checkDeadline = Except.ok () ∧ o.infer events = Except.error e) ∨
      (o.checkDeadline = Except.ok () ∧
        ∃ p, o.infer events = Except.ok p ∧ o.calibrateStage p = Except.error e)) :
    (orchestrate o cfg sparse s events).1.result = VerificationResult.STEP_UP ∧
    (∃ d, (orchestrate o cfg sparse s events).1.details = some d ∧
      d.lookup "fallback" = some (PyVal.vBool true)) ∧
    (orchestrate o cfg sparse s events).1.result ≠ VerificationResult.PASS := by
  have hpipe : pipelineConfidence o events = Except.error e := by
    unfold pipelineConfidence
    rcases h with h1 | ⟨h1, h2⟩ | ⟨h1, p, h2, h3⟩ <;>
      simp_all [bind, Except.bind]
  unfold orchestrate
  rw [hpipe]
  refine ⟨rfl, ⟨_, rfl, ?_⟩, ?_⟩
  · simp [PyDict.lookup, List.lookup]
  · intro hc
    simp at hc

/-- Witness for C1: a concrete orchestrator whose classifier fails with
ModelUnavailable falls back to STEP_UP with the diagnostic flag set. -/
theorem infra_error_yields_step_up_witness :
    (orchestrate failingOrch cfgEx false freshPSession []).1.result =
      VerificationResult.STEP_UP ∧
    (∃ d, (orchestrate failingOrch cfgEx false freshPSession []).1.details = some d ∧
      d.lookup "fallback" = some (PyVal.vBool true)) ∧
    (orchestrate failingOrch cfgEx false freshPSession []).1.result ≠
      VerificationResult.PASS :=
  infra_error_yields_step_up failingOrch cfgEx false freshPSession []
    InfraError.ModelUnavailable (Or.inr (Or.inl ⟨rfl, rfl⟩))

/-- C6: the calibration transform is monotonic non-decreasing in its
`p_pass` input — for every well-formed calibration table, a strictly
larger raw probability calibrates to a confidence at least as large. -/
theorem calibrate_monotone (tbl : List CalibPoint) (pa pb : ℚ)
    (hwf : WellFormedTable tbl) (h : pb < pa) :
    calibrate tbl pb ≤ calibrate tbl pa := by
  unfold calibrate
  exact lookupCal_mono tbl pa pb 0 hwf.1 (fun c hc => (hwf.2 c hc).1) h.le

/-- Witness for C6 on a concrete two-point table and probe points 3 < 6. -/
theorem calibrate_monotone_witness :
    calibrate calTableEx 3 ≤ calibrate calTableEx 6 :=
  calibrate_monotone calTableEx 6 3
    (by unfold WellFormedTable calTableEx; exact ⟨by decide, by decide⟩) (by decide)

/-- C7: once a session reaches the TERMINAL state, no sequence of further
decision-policy steps within that session's lifetime leaves TERMINAL, and
a new scoring call on a TERMINAL session is the decision on a freshly
derived session, not a reuse of the stale terminal state. -/
theorem terminal_absorbing (cfg : PolicyConfig) (s : PSession) (v : VerificationResult)
    (inputs : List (ℚ × Bool)) (conf : ℚ) (sparse : Bool)
    (h : s.pstate = PState.TERMINAL v) :
    (runLifetime cfg s inputs).pstate = PState.TERMINAL v ∧
    scoreCall cfg conf sparse s = decide cfg conf sparse freshPSession := by
  constructor
  · rw [runLifetime_terminal_fixed cfg s v h inputs, h]
  · obtain ⟨ps, rc, su⟩ := s
    cases ps <;> simp_all [scoreCall]

/-- Witness for C7 on a concrete TERMINAL-PASS session. -/
theorem terminal_absorbing_witness :
    (runLifetime cfgEx termSessEx [(10, false), (3, true)]).pstate =
      PState.TERMINAL VerificationResult.PASS ∧
    scoreCall cfgEx 3 false termSessEx = decide cfgEx 3 false freshPSession :=
  terminal_absorbing cfgEx termSessEx VerificationResult.PASS [(10, false), (3, true)]
    3 false rfl

/-- C8: along every sequence of scoring calls the session's
regenerate-count never exceeds `max_regenerate`, and once the budget is
exhausted an ambiguous-confidence result on a live session is always
STEP_UP and never a further REGENERATE. -/
theorem regenerate_bounded (cfg : PolicyConfig) (inputs : List (ℚ × Bool)) (conf : ℚ)
    (sparse : Bool) (s : PSession)
    (hcount : cfg.max_regenerate ≤ s.regenerate_count)
    (hnt : ∀ v, s.pstate ≠ PState.TERMINAL v)
    (hlo : cfg.fail_threshold < conf) (hhi : conf < cfg.pass_threshold) :
    (runCalls cfg freshPSession inputs).regenerate_count ≤ cfg.max_regenerate ∧
    (decide cfg conf sparse s).1 = VerificationResult.STEP_UP ∧
    (decide cfg conf sparse s).1 ≠ VerificationResult.REGENERATE := by
  have hstep : (decide cfg conf sparse s).1 = VerificationResult.STEP_UP := by
    obtain ⟨ps, rc, su⟩ := s
    cases ps
    case TERMINAL w => exact absurd rfl (hnt w)
    all_goals
      simp only [decide]
      split_ifs with h1 h2 h3
      · exact absurd h1 (not_le.mpr hhi)
      · exact absurd h2 (not_le.mpr hlo)
      · exact absurd h3.2.1 (Nat.not_lt.mpr hcount)
      · rfl
  refine ⟨runCalls_count_le cfg inputs freshPSession (Nat.zero_le _), hstep, ?_⟩
  rw [hstep]
  intro hc
  exact VerificationResult.noConfusion hc

/-- Witness for C8 on a concrete exhausted ESCALATED session and an
ambiguous confidence of 4 on the 0–10 scale. -/
theorem regenerate_bounded_witness :
    (runCalls cfgEx freshPSession [(4, false), (4, false), (4, false)]).regenerate_count ≤
      cfgEx.max_regenerate ∧
    (decide cfgEx 4 false escSessEx).1 = VerificationResult.STEP_UP ∧
    (decide cfgEx 4 false escSessEx).1 ≠ VerificationResult.REGENERATE :=
  regenerate_bounded cfgEx [(4, false), (4, false), (4, false)] 4 false escSessEx
    (by decide) (fun v hv => by simp [escSessEx] at hv) (by decide) (by decide)

/-- C9: after any append the session's event history never exceeds
`retention_cap`, and the appended history is a suffix of the old history
followed by the new event — only the oldest events are evicted (FIFO)
before the new one is appended. -/
theorem append_retention_cap (cap : ℕ) (history : List NormalizedEvent) (e : NormalizedEvent)
    (hcap : 1 ≤ cap) :
    (appendCapped cap history e).length ≤ cap ∧
    appendCapped cap history e <:+ history ++ [e] := by
  constructor
  · unfold appendCapped
    by_cases h : cap ≤ history.length
    · simp only [if_pos h, List.length_append, List.length_drop, List.length_cons,
        List.length_nil]
      omega
    · simp only [if_neg h, List.length_append, List.length_cons, List.length_nil]
      omega
  · unfold appendCapped
    by_cases h : cap ≤ history.length
    · rw [if_pos h]
      exact ⟨history.take (history.length + 1 - cap),
        by rw [← List.append_assoc, List.take_append_drop]⟩
    · rw [if_neg h]

/-- Witness for C9: appending a third event to a two-event history under
a retention cap of 2. -/
theorem append_retention_cap_witness :
    (appendCapped 2 histEx { kind := EventKind.timingBeacon, timestamp := 2 }).length ≤ 2 ∧
    appendCapped 2 histEx { kind := EventKind.timingBeacon, timestamp := 2 } <:+
      histEx ++ [{ kind := EventKind.timingBeacon, timestamp := 2 }] :=
  append_retention_cap 2 histEx { kind := EventKind.timingBeacon, timestamp := 2 }
    (by decide)

/-- C3 (divergence witness): the source's `score` maps the one-event
new-session request to PASS, not to the STEP_UP verdict the specification
requires for a sparse history. -/
theorem score_one_event_returns_pass :
    (score oneEventRequest).result = VerificationResult.PASS ∧
    (score oneEventRequest).result ≠ VerificationResult.STEP_UP := by
  refine ⟨rfl, ?_⟩
  intro h
  simp [score] at h

end PlayProof
